import Mathlib

set_option maxRecDepth 10000

/-!
Verification of the route-table construction, URL templating and CLI dispatch
of the insights-results-smart-proxy repository, via a shallow embedding of the
two source files (the server endpoints file and `smart_proxy.go`).

Conventions of the embedding:
* Go strings are Lean `String`s; character-level work happens on `String.data`.
* The gorilla/mux router is modelled by the list of registered routes in
  registration order; request dispatch is "first registered route whose method
  set and path pattern match wins", which is mux's documented matching order.
  A mux path pattern matches a concrete path when they have the same number of
  `/`-separated segments and each pattern segment is either an identical
  literal or a `{name}` variable segment (which matches any non-empty
  segment, mux's default `[^/]+`).
* `router.PathPrefix(p).Handler(h)` is modelled as a subtree route matching
  every request whose path has `p` as a string prefix, any method.
* Handlers are modelled by the `Target` they dispatch to: a proxy to a
  backend base endpoint, or one of the local handlers.
-/

/-- HTTP methods used by the server. -/
inductive Method where
  | GET
  | PUT
  | POST
  | DELETE
  | OPTIONS
deriving DecidableEq, BEq

/-- Where a matched route dispatches: `proxy base` models
`server.proxyTo(base)`, the other constructors model the local handlers
(`server.mainEndpoint`, `promhttp.Handler()`, `server.serveAPISpecFile`,
`http.DefaultServeMux` for pprof). -/
inductive Target where
  | proxy (base : String)
  | localMain
  | localMetrics
  | localSpecFile
  | localPprof
deriving DecidableEq, BEq

/-- One registered route: the full registered path pattern, the list passed to
`.Methods(...)` (empty together with `subtree = true` for the
`PathPrefix` registration, which restricts no method), and the handler's
target. -/
structure Route where
  pattern : String
  methods : List Method
  subtree : Bool
  target : Target
deriving DecidableEq, BEq

/-- Server configuration fields read by `addEndpointsToRouter`
(`server.Config.APIPrefix`, `server.Config.APISpecFile`, `server.Config.Debug`
in the source). -/
structure ServerConfig where
  apiPrefixStr : String
  APISpecFile : String
  Debug : Bool
deriving DecidableEq

/-- Services configuration fields read by the route builder. -/
structure ServicesConfig where
  AggregatorBaseEndpoint : String
  ContentBaseEndpoint : String
deriving DecidableEq

-- Endpoint path template constants, verbatim from the source.

/-- MainEndpoint returns status ok -/
def MainEndpoint : String := ""

/-- DeleteOrganizationsEndpoint deletes all organizations in the list. DEBUG only -/
def DeleteOrganizationsEndpoint : String := "organizations/{organizations}"

/-- DeleteClustersEndpoint deletes all clusters in the list. DEBUG only -/
def DeleteClustersEndpoint : String := "clusters/{clusters}"

/-- OrganizationsEndpoint returns all organizations -/
def OrganizationsEndpoint : String := "organizations"

/-- ReportEndpoint returns report for provided organization and cluster -/
def ReportEndpoint : String := "report/{organization}/{cluster}"

/-- LikeRuleEndpoint likes a rule for a cluster -/
def LikeRuleEndpoint : String := "clusters/{cluster}/rules/{rule_id}/like"

/-- DislikeRuleEndpoint dislikes a rule for a cluster -/
def DislikeRuleEndpoint : String := "clusters/{cluster}/rules/{rule_id}/dislike"

/-- ResetVoteOnRuleEndpoint resets vote on a rule -/
def ResetVoteOnRuleEndpoint : String := "clusters/{cluster}/rules/{rule_id}/reset_vote"

/-- GetVoteOnRuleEndpoint is an endpoint to get vote on rule. DEBUG only -/
def GetVoteOnRuleEndpoint : String := "clusters/{cluster}/rules/{rule_id}/get_vote"

/-- RuleEndpoint is an endpoint to create and delete a rule. DEBUG only -/
def RuleEndpoint : String := "rules/{rule_id}"

/-- RuleErrorKeyEndpoint is for rule error key creation and deletion (DEBUG
only) and for the endpoint to get a rule -/
def RuleErrorKeyEndpoint : String := "rules/{rule_id}/error_keys/{error_key}"

/-- RuleGroupsEndpoint is a simple redirect endpoint to the
insights-content-service API -/
def RuleGroupsEndpoint : String := "groups"

/-- ClustersForOrganizationEndpoint returns all clusters for an organization -/
def ClustersForOrganizationEndpoint : String := "organizations/{organization}/clusters"

/-- DisableRuleForClusterEndpoint disables a rule for specified cluster -/
def DisableRuleForClusterEndpoint : String := "clusters/{cluster}/rules/{rule_id}/disable"

/-- EnableRuleForClusterEndpoint re-enables a rule for specified cluster -/
def EnableRuleForClusterEndpoint : String := "clusters/{cluster}/rules/{rule_id}/enable"

/-- MetricsEndpoint returns prometheus metrics -/
def MetricsEndpoint : String := "metrics"

/-- A normal (non-subtree) route registration, one `router.HandleFunc(...)`
call. -/
def mkRoute (p : String) (ms : List Method) (t : Target) : Route :=
  ⟨p, ms, false, t⟩

/-- `filepath.Base` of the Go standard library, which the source applies to
`server.Config.APISpecFile`: drop trailing slashes, then keep the part after
the last slash; `""` gives `"."` and an all-slash path gives `"/"`. -/
def filepathBase (p : String) : String :=
  if p.data = [] then "."
  else
    let t := (p.data.reverse.dropWhile (fun c => c = '/')).reverse
    if t = [] then "/"
    else String.mk ((t.reverse.takeWhile (fun c => c ≠ '/')).reverse)

/-- Embedding of `addDebugEndpointsToRouter`: the eight debug
`router.HandleFunc` registrations, in source order, followed by the pprof
`PathPrefix` subtree registration. -/
def addDebugEndpointsToRouter (cfg : ServerConfig) (svc : ServicesConfig) : List Route :=
  let apiPrefixPart := cfg.apiPrefixStr
  let agg := Target.proxy svc.AggregatorBaseEndpoint
  [ mkRoute (apiPrefixPart ++ OrganizationsEndpoint) [Method.GET] agg,
    mkRoute (apiPrefixPart ++ DeleteOrganizationsEndpoint) [Method.DELETE] agg,
    mkRoute (apiPrefixPart ++ DeleteClustersEndpoint) [Method.DELETE] agg,
    mkRoute (apiPrefixPart ++ GetVoteOnRuleEndpoint) [Method.GET] agg,
    mkRoute (apiPrefixPart ++ RuleEndpoint) [Method.POST] agg,
    mkRoute (apiPrefixPart ++ RuleErrorKeyEndpoint) [Method.POST] agg,
    mkRoute (apiPrefixPart ++ RuleEndpoint) [Method.DELETE] agg,
    mkRoute (apiPrefixPart ++ RuleErrorKeyEndpoint) [Method.DELETE] agg,
    ⟨"/debug/pprof/", [], true, Target.localPprof⟩ ]

/-- The standard (always-registered) route list of `addEndpointsToRouter`,
lines 92-107 of the source, in source order. -/
def commonRoutes (cfg : ServerConfig) (svc : ServicesConfig) : List Route :=
  let apiPrefixPart := cfg.apiPrefixStr
  let agg := Target.proxy svc.AggregatorBaseEndpoint
  let content := Target.proxy svc.ContentBaseEndpoint
  [ mkRoute (apiPrefixPart ++ MainEndpoint) [Method.GET] Target.localMain,
    mkRoute (apiPrefixPart ++ ReportEndpoint) [Method.GET, Method.OPTIONS] agg,
    mkRoute (apiPrefixPart ++ LikeRuleEndpoint) [Method.PUT, Method.OPTIONS] agg,
    mkRoute (apiPrefixPart ++ DislikeRuleEndpoint) [Method.PUT, Method.OPTIONS] agg,
    mkRoute (apiPrefixPart ++ ResetVoteOnRuleEndpoint) [Method.PUT, Method.OPTIONS] agg,
    mkRoute (apiPrefixPart ++ ClustersForOrganizationEndpoint) [Method.GET] agg,
    mkRoute (apiPrefixPart ++ DisableRuleForClusterEndpoint) [Method.PUT, Method.OPTIONS] agg,
    mkRoute (apiPrefixPart ++ EnableRuleForClusterEndpoint) [Method.PUT, Method.OPTIONS] agg,
    mkRoute (apiPrefixPart ++ RuleGroupsEndpoint) [Method.GET, Method.OPTIONS] content,
    mkRoute (apiPrefixPart ++ RuleErrorKeyEndpoint) [Method.GET] agg,
    mkRoute (apiPrefixPart ++ MetricsEndpoint) [Method.GET] Target.localMetrics,
    mkRoute (apiPrefixPart ++ filepathBase cfg.APISpecFile) [Method.GET] Target.localSpecFile ]

/-- Embedding of `addEndpointsToRouter`: when `Debug` is set the debug routes
are registered first (the source calls `addDebugEndpointsToRouter` before the
common registrations); then the common routes are always registered. -/
def addEndpointsToRouter (cfg : ServerConfig) (svc : ServicesConfig) : List Route :=
  (if cfg.Debug then addDebugEndpointsToRouter cfg svc else []) ++ commonRoutes cfg svc

/-- Split a character list at `/` separators; `splitSegs "a/b".data`
is `["a", "b"].map String.data`. Mirrors how mux compares patterns and
paths segment by segment. -/
def splitSegs : List Char → List (List Char)
  | [] => [[]]
  | c :: rest =>
    if c = '/' then [] :: splitSegs rest
    else
      match splitSegs rest with
      | seg :: segs => (c :: seg) :: segs
      | [] => [[c]]

/-- A mux variable pattern segment `{name}` with a non-empty name. -/
def isVarSeg (p : List Char) : Bool :=
  p.head? = some '{' && p.getLast? = some '}' && decide (3 ≤ p.length) &&
    ((p.drop 1).dropLast.all fun c => c ≠ '{' && c ≠ '}')

/-- One pattern segment against one path segment: a variable segment matches
any non-empty segment (mux's default `[^/]+`), a literal segment matches
itself. -/
def segMatchOne (p s : List Char) : Bool :=
  if isVarSeg p then !s.isEmpty else p == s

/-- All pattern segments against all path segments, in order; the counts must
agree. -/
def segMatches : List (List Char) → List (List Char) → Bool
  | [], [] => true
  | p :: ps, s :: ss => segMatchOne p s && segMatches ps ss
  | _, _ => false

/-- Whether a registered route matches a request: subtree (`PathPrefix`)
routes match any method on any path extending the registered string; normal
routes require the method to be in the registered method list and the path to
match the pattern segment-wise. -/
def routeMatches (r : Route) (m : Method) (path : String) : Bool :=
  if r.subtree then r.pattern.data.isPrefixOf path.data
  else r.methods.contains m && segMatches (splitSegs r.pattern.data) (splitSegs path.data)

/-- First-match dispatch over the route table: the first route in
registration order matching both method and path wins (mux matching order);
`none` means no route matched both method and path, which the router then
refines into 404 or 405 — see `resolveRequest`. -/
def dispatch (rs : List Route) (m : Method) (path : String) : Option Target :=
  (rs.find? fun r => routeMatches r m path).map Route.target

/-- Whether a route's path pattern alone matches the request path, the
method ignored: mux uses this to distinguish a method mismatch from an
unknown path. -/
def routePathMatches (r : Route) (path : String) : Bool :=
  if r.subtree then r.pattern.data.isPrefixOf path.data
  else segMatches (splitSegs r.pattern.data) (splitSegs path.data)

/-- The router's verdict on a request: dispatched to a target, 405 Method
Not Allowed, or 404 not-found. -/
inductive RouteOutcome where
  | matched (t : Target)
  | methodNotAllowed
  | notFound
deriving DecidableEq

/-- Full mux request resolution: the first route matching both method and
path wins; otherwise, if some registered route matches the path but not the
method, mux records the method mismatch and serves 405 Method Not Allowed;
only when no route matches even the path is the request 404 not-found. -/
def resolveRequest (rs : List Route) (m : Method) (path : String) : RouteOutcome :=
  match rs.find? (fun r => routeMatches r m path) with
  | some r => RouteOutcome.matched r.target
  | none =>
    if rs.any (fun r => routePathMatches r path) then RouteOutcome.methodNotAllowed
    else RouteOutcome.notFound

/-- Do the method lists of two registrations overlap? -/
def methodOverlap (a b : List Method) : Bool :=
  a.any fun m => b.contains m

/-- Whether two distinct non-subtree registrations in the table share a
method and resolve to the identical path pattern (the spec's "ambiguous
pair"). -/
def hasDupRoute : List Route → Bool
  | [] => false
  | r :: rest =>
    (rest.any fun s =>
      !r.subtree && !s.subtree && r.pattern == s.pattern &&
        methodOverlap r.methods s.methods) ||
    hasDupRoute rest

/-!
URL template builder: `MakeURLToEndpoint` compiles the regex
`\{[a-zA-Z_0-9]+\}`, replaces every match in the endpoint template by `%v`,
and returns `apiPrefix + fmt.Sprintf(endpoint, args...)`.  The embedding
performs the same leftmost-match scan (RE2 `ReplaceAllString` replaces
non-overlapping leftmost matches) producing a token list, renders it with
`%v` in place of each match, and runs a model of the fragment of
`fmt.Sprintf` reachable from such format strings (verbs `%v` and `%%`; the
other error cases follow Go's `%!verb(MISSING)` / `%!(EXTRA ...)` /
`%!(NOVERB)` renderings for string operands; flag and width parsing of other
verbs is not modelled).  Arguments are modelled as strings, a string being
its own `%v` default rendering. -/

/-- A character of the regex class `[a-zA-Z_0-9]`. -/
def isWordChar (c : Char) : Bool :=
  ('a' ≤ c && c ≤ 'z') || ('A' ≤ c && c ≤ 'Z') || ('0' ≤ c && c ≤ '9') || c = '_'

/-- Longest prefix of word characters, with the remainder. -/
def wordSpan : List Char → List Char × List Char
  | [] => ([], [])
  | c :: rest =>
    if isWordChar c then
      let ws := wordSpan rest
      (c :: ws.1, ws.2)
    else ([], c :: rest)

/-- A token of the scanned template: a literal character, or a regex
placeholder match `{name}` carrying its name. -/
inductive Tok where
  | lit (c : Char)
  | ph (name : List Char)
deriving DecidableEq

/-- Leftmost-match scan for `\{[a-zA-Z_0-9]+\}`, fuelled so that it is
structurally recursive and kernel-reducible; the fuel is always at least the
length of the remaining input, which suffices because every step consumes at
least one character. -/
def tokenizeF : Nat → List Char → List Tok
  | 0, _ => []
  | _ + 1, [] => []
  | f + 1, c :: rest =>
    if c = '{' then
      if (wordSpan rest).1 ≠ [] ∧ (wordSpan rest).2.head? = some '}' then
        Tok.ph (wordSpan rest).1 :: tokenizeF f (wordSpan rest).2.tail
      else Tok.lit c :: tokenizeF f rest
    else Tok.lit c :: tokenizeF f rest

/-- Scan a whole character list (fuel = length is always enough). -/
def tokenize (l : List Char) : List Tok :=
  tokenizeF l.length l

/-- Render the token list back to the format string handed to `Sprintf`:
every placeholder match becomes `%v`, everything else is unchanged.  The
composition `renderToks (tokenize l)` is `ReplaceAllString` of the source. -/
def renderToks : List Tok → List Char
  | [] => []
  | Tok.lit c :: ts => c :: renderToks ts
  | Tok.ph _ :: ts => '%' :: 'v' :: renderToks ts

/-- Number of placeholder matches among the tokens. -/
def countPh : List Tok → Nat
  | [] => 0
  | Tok.lit _ :: ts => countPh ts
  | Tok.ph _ :: ts => countPh ts + 1

/-- Number of regex placeholder matches in a template string. -/
def phCount (t : String) : Nat :=
  countPh (tokenize t.data)

/-- Go's rendering of operands left over after the format string is
exhausted: `%!(EXTRA string=a, string=b)` for string operands. -/
def extraArgsList : List String → List Char
  | [] => []
  | [a] => "string=".data ++ a.data
  | a :: rest => "string=".data ++ a.data ++ ", ".data ++ extraArgsList rest

/-- Appended by `Sprintf` when operands remain unconsumed. -/
def extraTail (args : List String) : List Char :=
  match args with
  | [] => []
  | _ :: _ => "%!(EXTRA ".data ++ extraArgsList args ++ ")".data

/-- Model of `fmt.Sprintf` on string operands for the format-string fragment
produced above: `%%` is a literal percent, `%v` consumes the next operand (or
renders `%!v(MISSING)`), any other verb character renders Go's
`%!c(string=arg)` / `%!c(MISSING)`, a trailing `%` renders `%!(NOVERB)`, and
leftover operands are reported via `extraTail`. -/
def sprintfV : List Char → List String → List Char
  | [], args => extraTail args
  | c :: rest, args =>
    if c = '%' then
      match rest with
      | [] => "%!(NOVERB)".data ++ extraTail args
      | v :: r2 =>
        if v = '%' then '%' :: sprintfV r2 args
        else if v = 'v' then
          match args with
          | a :: rest2 => a.data ++ sprintfV r2 rest2
          | [] => "%!v(MISSING)".data ++ sprintfV r2 []
        else
          match args with
          | a :: rest2 =>
            "%!".data ++ [v] ++ "(string=".data ++ a.data ++ ")".data ++ sprintfV r2 rest2
          | [] => "%!".data ++ [v] ++ "(MISSING)".data ++ sprintfV r2 []
    else c :: sprintfV rest args

/-- Embedding of `MakeURLToEndpoint`: replace every regex placeholder match
by `%v`, format with the positional arguments, and prepend the prefix. -/
def MakeURLToEndpoint (apiPrefixArg endpoint : String) (args : List String) : String :=
  apiPrefixArg ++ String.mk (sprintfV (renderToks (tokenize endpoint.data)) args)

/-- Direct positional substitution, the second definition for the refinement
claim; it follows the spec's contract wording: every placeholder, scanned
left-to-right, is replaced by the positionally corresponding argument, and
everything else is copied verbatim (a placeholder with no argument left is
reconstructed verbatim; under the arity side condition this never happens). -/
def substToks : List Tok → List String → List Char
  | [], _ => []
  | Tok.lit c :: ts, args => c :: substToks ts args
  | Tok.ph _ :: ts, a :: rest => a.data ++ substToks ts rest
  | Tok.ph w :: ts, [] => '{' :: w ++ '}' :: substToks ts []

/-- The spec-side result of `buildURL`: prefix, then the template with
placeholders positionally substituted. -/
def substTemplate (apiPrefixArg endpoint : String) (args : List String) : String :=
  apiPrefixArg ++ String.mk (substToks (tokenize endpoint.data) args)

/-- The argument values occur in the output left-to-right, in order. -/
def ArgsInOrder : List String → List Char → Prop
  | [], _ => True
  | a :: rest, s => ∃ pre post, s = pre ++ a.data ++ post ∧ ArgsInOrder rest post

/-- Substring test on character lists. -/
def hasSubstr (needle : List Char) : List Char → Bool
  | [] => needle.isEmpty
  | c :: rest => needle.isPrefixOf (c :: rest) || hasSubstr needle rest

/-- Go's marker for a format verb with no operand left. -/
def missingMarker : List Char := "%!v(MISSING)".data

/-- Start of Go's marker for unconsumed operands. -/
def extraMarker : List Char := "%!(EXTRA ".data

/-!
CLI command dispatch, from `smart_proxy.go`.  Side-effecting actions are
modelled by the `Effect` they perform; the exit status is the `Nat` the
functions return.  `startServer`'s success depends on the external
`server.Start()` call, modelled by the boolean `serverStartOK`; the
`printConfig` return value is discarded by `handleCommand` in the source, so
it does not appear here. -/

/-- The action a CLI command dispatches to. -/
inductive Effect where
  | startService
  | printVersionInfo
  | printHelp
  | printConfig
  | printEnv
  | noop
deriving DecidableEq

/-- ExitStatusOK means that the tool finished with success. -/
def ExitStatusOK : Nat := 0

/-- ExitStatusServerError means that the HTTP server cannot be initialized. -/
def ExitStatusServerError : Nat := 1

/-- The help message template string, verbatim from the source. -/
def helpMessageTemplate : String :=
  "\nSmart Proxy service for insights results\n\nUsage:\n\n    %+v [command]\n\nThe commands are:\n\n    <EMPTY>             starts aggregator\n    start-service       starts aggregator\n    help                prints help\n    print-help          prints help\n    print-config        prints current configuration set by files & env variables\n    print-env           prints env variables\n    print-version-info  prints version info\n\n"

/-- Embedding of `handleCommand`: the source `switch` over the command token;
any token missing from the cases falls through to `return ExitStatusOK`. -/
def handleCommand (serverStartOK : Bool) (command : String) : Effect × Nat :=
  if command = "start-service" then
    (Effect.startService, if serverStartOK then ExitStatusOK else ExitStatusServerError)
  else if command = "print-version" then (Effect.printVersionInfo, ExitStatusOK)
  else if command = "print-help" then (Effect.printHelp, ExitStatusOK)
  else if command = "print-config" then (Effect.printConfig, ExitStatusOK)
  else if command = "print-env" then (Effect.printEnv, ExitStatusOK)
  else (Effect.noop, ExitStatusOK)

/-- ASCII whitespace as trimmed by `strings.TrimSpace` (the Unicode-only
space characters do not occur in command tokens). -/
def isSpaceChar (c : Char) : Bool :=
  c = ' ' || c = '\t' || c = '\n' || c = '\x0b' || c = '\x0c' || c = '\r'

/-- `strings.TrimSpace`: drop leading and trailing whitespace. -/
def trimStr (s : String) : String :=
  String.mk (((s.data.dropWhile isSpaceChar).reverse.dropWhile isSpaceChar).reverse)

/-- `strings.ToLower` (ASCII; command tokens are ASCII). -/
def toLowerStr (s : String) : String :=
  String.mk (s.data.map Char.toLower)

/-- The command token `main` computes: `"start-service"` when no positional
argument is given, otherwise the first argument trimmed then lowercased. -/
def mainCommand (args : List String) : String :=
  match args with
  | [] => "start-service"
  | a :: _ => toLowerStr (trimStr a)

/-- Embedding of `main` after flag parsing: a configuration-load error
panics (abnormal termination, no exit status is returned); `--help` and
`--version` print and exit 0; otherwise the command token is dispatched and
its status is the exit status. -/
def mainRun (configLoadOK showHelp showVersion serverStartOK : Bool)
    (args : List String) : Except String (Effect × Nat) :=
  if configLoadOK = false then Except.error "panic: configuration load failure"
  else if showHelp then Except.ok (Effect.printHelp, ExitStatusOK)
  else if showVersion then Except.ok (Effect.printVersionInfo, ExitStatusOK)
  else Except.ok (handleCommand serverStartOK (mainCommand args))

/-!
Proxy forwarder.  The body of `proxyTo` is not under src/ (only its call
sites in `addEndpointsToRouter` are), so it is modelled from the spec. -/

/-- An inbound request as seen by a proxied handler, with the backend path
already resolved by the routing layer. -/
structure ProxiedRequest where
  method : Method
  resolvedPath : String
  query : String
  headers : List (String × String)
  body : String
deriving DecidableEq

/-- The single outbound request a proxied handler sends. -/
structure OutboundRequest where
  method : Method
  url : String
  query : String
  headers : List (String × String)
  body : String
deriving DecidableEq

/-- A backend response: status code, headers, body. -/
structure BackendResponse where
  status : Nat
  headers : List (String × String)
  body : String
deriving DecidableEq

/-- What one proxied request produced: the outbound requests sent (in order)
and the response returned to the original caller. -/
structure ProxyOutcome where
  sent : List OutboundRequest
  response : BackendResponse
deriving DecidableEq

/-- Modelled from the spec: the body of `proxyTo` is missing from src/.
Per spec section 4.3, the handler for a backend base endpoint constructs one
outbound request with the same method, query string, headers and body as the
inbound request, addressed at the base endpoint joined with the resolved
path, sends it (the `send` parameter stands for the backend round trip), and
returns the backend's status, headers and body verbatim to the caller. -/
def proxyTo (base : String) (send : OutboundRequest → BackendResponse)
    (req : ProxiedRequest) : ProxyOutcome :=
  let out : OutboundRequest :=
    ⟨req.method, base ++ req.resolvedPath, req.query, req.headers, req.body⟩
  ⟨[out], send out⟩

/-!  Lemmas about the template scanner. -/

theorem wordSpan_append (l : List Char) : (wordSpan l).1 ++ (wordSpan l).2 = l := by
  induction l with
  | nil => rfl
  | cons c rest ih =>
    by_cases h : isWordChar c <;> simp [wordSpan, h, ih]

theorem wordSpan_snd_length (l : List Char) : (wordSpan l).2.length ≤ l.length := by
  induction l with
  | nil => exact Nat.le_refl 0
  | cons c rest ih =>
    by_cases h : isWordChar c <;> simp [wordSpan, h]
    exact Nat.le_succ_of_le ih

theorem tokenizeF_fuel_irrel : ∀ (f g : Nat) (l : List Char),
    l.length ≤ f → l.length ≤ g → tokenizeF f l = tokenizeF g l := by
  intro f
  induction f with
  | zero =>
    intro g l hf _
    have hl : l = [] := List.eq_nil_of_length_eq_zero (Nat.le_zero.mp hf)
    subst hl
    cases g <;> rfl
  | succ f ih =>
    intro g l hf hg
    cases l with
    | nil => cases g <;> rfl
    | cons c rest =>
      cases g with
      | zero => simp at hg
      | succ g2 =>
        have hrf : rest.length ≤ f := by
          simp only [List.length_cons] at hf
          omega
        have hrg : rest.length ≤ g2 := by
          simp only [List.length_cons] at hg
          omega
        by_cases hc : c = '{'
        · by_cases hm : (wordSpan rest).1 ≠ [] ∧ (wordSpan rest).2.head? = some '}'
          · have htl : (wordSpan rest).2.tail.length ≤ rest.length := by
              have h1 := wordSpan_snd_length rest
              have h2 := List.length_tail ((wordSpan rest).2)
              omega
            simp only [tokenizeF, hc, if_pos hm, if_pos rfl]
            exact congrArg _ (ih g2 _ (Nat.le_trans htl hrf) (Nat.le_trans htl hrg))
          · simp only [tokenizeF, hc, if_neg hm, if_pos rfl]
            exact congrArg _ (ih g2 rest hrf hrg)
        · simp only [tokenizeF, if_neg hc]
          exact congrArg _ (ih g2 rest hrf hrg)

theorem tokenizeF_eq_tokenize (f : Nat) (l : List Char) (h : l.length ≤ f) :
    tokenizeF f l = tokenize l :=
  tokenizeF_fuel_irrel f l.length l h (Nat.le_refl _)

theorem tokenize_cons_lit (c : Char) (l : List Char) (h : c ≠ '{') :
    tokenize (c :: l) = Tok.lit c :: tokenize l := by
  simp [tokenize, tokenizeF, h]

theorem tokenize_open_ph (l : List Char)
    (h : (wordSpan l).1 ≠ [] ∧ (wordSpan l).2.head? = some '}') :
    tokenize ('{' :: l) = Tok.ph (wordSpan l).1 :: tokenize ((wordSpan l).2.tail) := by
  have htl : (wordSpan l).2.tail.length ≤ l.length := by
    have h1 := wordSpan_snd_length l
    have h2 := List.length_tail ((wordSpan l).2)
    omega
  simp only [tokenize, List.length_cons, tokenizeF, if_pos rfl, if_pos h]
  exact congrArg _ (tokenizeF_fuel_irrel _ _ _ htl (Nat.le_refl _))

theorem tokenize_open_lit (l : List Char)
    (h : ¬((wordSpan l).1 ≠ [] ∧ (wordSpan l).2.head? = some '}')) :
    tokenize ('{' :: l) = Tok.lit '{' :: tokenize l := by
  simp [tokenize, tokenizeF, h]

theorem tokenize_append_lits (w r : List Char) (h : '{' ∉ w) :
    tokenize (w ++ r) = w.map Tok.lit ++ tokenize r := by
  induction w with
  | nil => rfl
  | cons c w2 ih =>
    have hc : c ≠ '{' := fun e => h (by simp [e])
    have hw2 : '{' ∉ w2 := fun e => h (List.mem_cons_of_mem _ e)
    simpa [tokenize_cons_lit c _ hc] using congrArg (Tok.lit c :: ·) (ih hw2)

theorem wordSpan_stops (w r : List Char) (hbad : ∃ c ∈ w, isWordChar c = false)
    (hnb : '}' ∉ w) :
    ∃ b tl, (wordSpan (w ++ '}' :: r)).2 = b :: tl ∧ b ≠ '}' := by
  induction w with
  | nil => simp at hbad
  | cons x w2 ih =>
    by_cases hx : isWordChar x
    · have hbad2 : ∃ c ∈ w2, isWordChar c = false := by
        rcases hbad with ⟨c, hc, hcf⟩
        rcases List.mem_cons.mp hc with he | hm
        · rw [he] at hcf; rw [hx] at hcf; cases hcf
        · exact ⟨c, hm, hcf⟩
      have hnb2 : '}' ∉ w2 := fun e => hnb (List.mem_cons_of_mem _ e)
      rcases ih hbad2 hnb2 with ⟨b, tl, heq, hne⟩
      refine ⟨b, tl, ?_, hne⟩
      simpa [wordSpan, hx] using heq
    · refine ⟨x, w2 ++ '}' :: r, ?_, fun e => hnb (by simp [e])⟩
      simp [wordSpan, hx]

theorem tokenizeF_lit_mem : ∀ (f : Nat) (l : List Char) (c : Char),
    Tok.lit c ∈ tokenizeF f l → c ∈ l := by
  intro f
  induction f with
  | zero => intro l c h; simp [tokenizeF] at h
  | succ f ih =>
    intro l c h
    cases l with
    | nil => simp [tokenizeF] at h
    | cons d rest =>
      by_cases hd : d = '{'
      · subst hd
        by_cases hm : (wordSpan rest).1 ≠ [] ∧ (wordSpan rest).2.head? = some '}'
        · simp only [tokenizeF, if_pos rfl, if_pos hm] at h
          cases h with
          | tail _ hmem =>
            have hc2 := ih _ _ hmem
            rcases hsnd : (wordSpan rest).2 with _ | ⟨b, tl⟩
            · rw [hsnd] at hm
              simp at hm
            · rw [hsnd] at hc2
              simp only [List.tail_cons] at hc2
              have hcr : c ∈ rest := by
                rw [← wordSpan_append rest, hsnd]
                exact List.mem_append_right _ (List.mem_cons_of_mem _ hc2)
              exact List.mem_cons_of_mem _ hcr
        · simp only [tokenizeF, if_pos rfl, if_neg hm] at h
          cases h with
          | head => exact List.mem_cons_self _ _
          | tail _ hmem => exact List.mem_cons_of_mem _ (ih _ _ hmem)
      · simp only [tokenizeF, if_neg hd] at h
        cases h with
        | head => exact List.mem_cons_self _ _
        | tail _ hmem => exact List.mem_cons_of_mem _ (ih _ _ hmem)

theorem tokenize_lit_mem (l : List Char) (c : Char) (h : Tok.lit c ∈ tokenize l) : c ∈ l :=
  tokenizeF_lit_mem _ _ _ h

/-!  Lemmas relating the formatted output to direct substitution. -/

theorem countPh_append (a b : List Tok) : countPh (a ++ b) = countPh a + countPh b := by
  induction a with
  | nil => simp [countPh]
  | cons t ts ih =>
    cases t with
    | lit c => simpa [countPh] using ih
    | ph w => simp [countPh, ih]; omega

theorem countPh_map_lit (w : List Char) : countPh (w.map Tok.lit) = 0 := by
  induction w with
  | nil => rfl
  | cons c w2 ih => simpa [countPh] using ih

theorem sprintfV_cons_lit (c : Char) (rest : List Char) (args : List String)
    (h : c ≠ '%') : sprintfV (c :: rest) args = c :: sprintfV rest args := by
  cases rest with
  | nil => simp [sprintfV, h]
  | cons v r2 => simp [sprintfV, h]

theorem sprintfV_verb (r2 : List Char) (a : String) (args2 : List String) :
    sprintfV ('%' :: 'v' :: r2) (a :: args2) = a.data ++ sprintfV r2 args2 := by
  simp [sprintfV]

theorem sprintfV_verb_missing (r2 : List Char) :
    sprintfV ('%' :: 'v' :: r2) [] = missingMarker ++ sprintfV r2 [] := by
  simp [sprintfV, missingMarker]

theorem sprintfV_renderToks (ts : List Tok) :
    ∀ args : List String, (∀ c, Tok.lit c ∈ ts → c ≠ '%') → args.length = countPh ts →
      sprintfV (renderToks ts) args = substToks ts args := by
  induction ts with
  | nil =>
    intro args _ hlen
    have : args = [] := List.eq_nil_of_length_eq_zero (by simpa [countPh] using hlen)
    subst this
    rfl
  | cons t ts ih =>
    intro args hpct hlen
    cases t with
    | lit c =>
      have hc : c ≠ '%' := hpct c (List.mem_cons_self _ _)
      have hrec := ih args (fun d hd => hpct d (List.mem_cons_of_mem _ hd))
        (by simpa [countPh] using hlen)
      simp only [renderToks, substToks, sprintfV_cons_lit _ _ _ hc]
      exact congrArg _ hrec
    | ph w =>
      cases args with
      | nil => simp [countPh] at hlen
      | cons a args2 =>
        have hlen2 : args2.length = countPh ts := by
          simp only [List.length_cons, countPh] at hlen
          omega
        have hrec := ih args2 (fun d hd => hpct d (List.mem_cons_of_mem _ hd)) hlen2
        simp only [renderToks, substToks, sprintfV_verb]
        exact congrArg _ hrec

theorem sprintfV_missing (ts : List Tok) :
    ∀ args : List String, (∀ c, Tok.lit c ∈ ts → c ≠ '%') → args.length < countPh ts →
      ∃ pre post, sprintfV (renderToks ts) args = pre ++ missingMarker ++ post := by
  induction ts with
  | nil => intro args _ hlen; simp [countPh] at hlen
  | cons t ts ih =>
    intro args hpct hlen
    cases t with
    | lit c =>
      have hc : c ≠ '%' := hpct c (List.mem_cons_self _ _)
      rcases ih args (fun d hd => hpct d (List.mem_cons_of_mem _ hd))
          (by simpa [countPh] using hlen) with ⟨pre, post, heq⟩
      refine ⟨c :: pre, post, ?_⟩
      simp only [renderToks, sprintfV_cons_lit _ _ _ hc, heq, List.cons_append]
    | ph w =>
      cases args with
      | nil =>
        refine ⟨[], sprintfV (renderToks ts) [], ?_⟩
        simp [renderToks, sprintfV_verb_missing]
      | cons a args2 =>
        have hlen2 : args2.length < countPh ts := by
          simp only [List.length_cons, countPh] at hlen
          omega
        rcases ih args2 (fun d hd => hpct d (List.mem_cons_of_mem _ hd)) hlen2 with
          ⟨pre, post, heq⟩
        refine ⟨a.data ++ pre, post, ?_⟩
        simp [renderToks, sprintfV_verb, heq]

theorem sprintfV_extra (ts : List Tok) :
    ∀ args : List String, (∀ c, Tok.lit c ∈ ts → c ≠ '%') → countPh ts < args.length →
      ∃ pre post, sprintfV (renderToks ts) args = pre ++ extraMarker ++ post := by
  induction ts with
  | nil =>
    intro args _ hlen
    cases args with
    | nil => simp at hlen
    | cons a args2 =>
      refine ⟨[], extraArgsList (a :: args2) ++ ")".data, ?_⟩
      simp [sprintfV, extraTail, extraMarker]
  | cons t ts ih =>
    intro args hpct hlen
    cases t with
    | lit c =>
      have hc : c ≠ '%' := hpct c (List.mem_cons_self _ _)
      rcases ih args (fun d hd => hpct d (List.mem_cons_of_mem _ hd))
          (by simpa [countPh] using hlen) with ⟨pre, post, heq⟩
      refine ⟨c :: pre, post, ?_⟩
      simp only [renderToks, sprintfV_cons_lit _ _ _ hc, heq, List.cons_append]
    | ph w =>
      cases args with
      | nil => simp [countPh] at hlen
      | cons a args2 =>
        have hlen2 : countPh ts < args2.length := by
          simp only [List.length_cons, countPh] at hlen
          omega
        rcases ih args2 (fun d hd => hpct d (List.mem_cons_of_mem _ hd)) hlen2 with
          ⟨pre, post, heq⟩
        refine ⟨a.data ++ pre, post, ?_⟩
        simp [renderToks, sprintfV_verb, heq]

theorem argsInOrder_append_left (x : List Char) (args : List String) (s : List Char)
    (h : ArgsInOrder args s) : ArgsInOrder args (x ++ s) := by
  cases args with
  | nil => trivial
  | cons a rest =>
    rcases h with ⟨pre, post, heq, hrec⟩
    exact ⟨x ++ pre, post, by simp [heq], hrec⟩

theorem substToks_argsInOrder (ts : List Tok) :
    ∀ args : List String, args.length = countPh ts →
      ArgsInOrder args (substToks ts args) := by
  induction ts with
  | nil =>
    intro args hlen
    have : args = [] := List.eq_nil_of_length_eq_zero (by simpa [countPh] using hlen)
    subst this
    trivial
  | cons t ts ih =>
    intro args hlen
    cases t with
    | lit c =>
      have h1 := ih args (by simpa [countPh] using hlen)
      have h2 := argsInOrder_append_left [c] args _ h1
      simpa [substToks] using h2
    | ph w =>
      cases args with
      | nil => simp [countPh] at hlen
      | cons a args2 =>
        have hlen2 : args2.length = countPh ts := by
          simp only [List.length_cons, countPh] at hlen
          omega
        exact ⟨[], substToks ts args2, by simp [substToks], ih args2 hlen2⟩

/-!  Claim theorems for the URL template builder. -/

/-- Claim C2 (amended): for every prefix, template and argument list where the
template contains no percent character and the argument count equals the
number of regex placeholders, `MakeURLToEndpoint` returns the prefix followed
by the template with every placeholder, scanned left-to-right, replaced by
the positionally corresponding argument (`substTemplate`), and all argument
values occur in the output in original left-to-right order; the spec's
example evaluates as stated.  (The original claim's "zero remaining
placeholder syntax" clause is dropped: an argument may itself introduce
placeholder syntax, see the counterexample; and a `%` in the template is
interpreted by the formatter rather than copied.) -/
theorem makeURL_positional_substitution :
    (∀ (p t : String) (args : List String),
        (∀ c ∈ t.data, c ≠ '%') → args.length = phCount t →
        MakeURLToEndpoint p t args = substTemplate p t args ∧
        ArgsInOrder args (MakeURLToEndpoint p t args).data) ∧
    MakeURLToEndpoint "/api/v1/" "clusters/{cluster}/rules/{rule_id}/like" ["c1", "r1"]
      = "/api/v1/clusters/c1/rules/r1/like" := by
  constructor
  · intro p t args hpct hlen
    have hlit : ∀ c, Tok.lit c ∈ tokenize t.data → c ≠ '%' :=
      fun c hc => hpct c (tokenize_lit_mem _ _ hc)
    have heq := sprintfV_renderToks (tokenize t.data) args hlit hlen
    constructor
    · simp only [MakeURLToEndpoint, substTemplate, heq]
    · have h2 := substToks_argsInOrder (tokenize t.data) args hlen
      have h3 := argsInOrder_append_left p.data args _ h2
      have h4 : (MakeURLToEndpoint p t args).data
          = p.data ++ substToks (tokenize t.data) args := by
        simp [MakeURLToEndpoint, String.data_append, heq]
      rw [h4]
      exact h3
  · decide

/-- Witness for C2: the theorem applied at the spec table's report template. -/
theorem makeURL_positional_substitution_witness :
    MakeURLToEndpoint "/x/" "report/{organization}/{cluster}" ["o1", "c2"]
      = substTemplate "/x/" "report/{organization}/{cluster}" ["o1", "c2"] :=
  (makeURL_positional_substitution.1 "/x/" "report/{organization}/{cluster}" ["o1", "c2"]
    (by decide) (by decide)).1

/-- Counterexample to C2 as stated: with matching arity, an argument that is
itself placeholder syntax survives into the output, so the result does not
contain "zero remaining placeholder syntax". -/
theorem makeURL_placeholder_can_remain :
    MakeURLToEndpoint "" "{id}" ["{id}"] = "{id}" ∧
    (["{id}"] : List String).length = phCount "{id}" ∧
    phCount (MakeURLToEndpoint "" "{id}" ["{id}"]) = 1 := by decide

/-- Claim C3 (amended): an arity mismatch is not rejected: the function
totals to a string.  With fewer arguments than placeholders (and a
percent-free template) the output contains Go's `%!v(MISSING)` marker; with
more arguments it contains the `%!(EXTRA ...)` marker.  No error is raised at
route-construction or any other time. -/
theorem makeURL_arity_mismatch_returns_marker :
    (∀ (p t : String) (args : List String),
        (∀ c ∈ t.data, c ≠ '%') → args.length < phCount t →
        ∃ pre post, (MakeURLToEndpoint p t args).data = pre ++ missingMarker ++ post) ∧
    (∀ (p t : String) (args : List String),
        (∀ c ∈ t.data, c ≠ '%') → phCount t < args.length →
        ∃ pre post, (MakeURLToEndpoint p t args).data = pre ++ extraMarker ++ post) := by
  constructor
  · intro p t args hpct hlen
    have hlit : ∀ c, Tok.lit c ∈ tokenize t.data → c ≠ '%' :=
      fun c hc => hpct c (tokenize_lit_mem _ _ hc)
    rcases sprintfV_missing (tokenize t.data) args hlit hlen with ⟨pre, post, heq⟩
    refine ⟨p.data ++ pre, post, ?_⟩
    simp [MakeURLToEndpoint, String.data_append, heq]
  · intro p t args hpct hlen
    have hlit : ∀ c, Tok.lit c ∈ tokenize t.data → c ≠ '%' :=
      fun c hc => hpct c (tokenize_lit_mem _ _ hc)
    rcases sprintfV_extra (tokenize t.data) args hlit hlen with ⟨pre, post, heq⟩
    refine ⟨p.data ++ pre, post, ?_⟩
    simp [MakeURLToEndpoint, String.data_append, heq]

/-- Witness for C3 (amended): too few arguments for the rule template leave a
`%!v(MISSING)` marker in the output. -/
theorem makeURL_arity_mismatch_returns_marker_witness :
    ∃ pre post, (MakeURLToEndpoint "/api/" "rules/{rule_id}" []).data
      = pre ++ missingMarker ++ post :=
  makeURL_arity_mismatch_returns_marker.1 "/api/" "rules/{rule_id}" [] (by decide) (by decide)

/-- Counterexample to C3 as stated: on an arity mismatch the call does not
reject; it returns a string carrying the leftover-substitution marker. -/
theorem makeURL_arity_mismatch_not_rejected :
    MakeURLToEndpoint "/api/" "rules/{rule_id}" [] = "/api/rules/%!v(MISSING)" ∧
    ([] : List String).length ≠ phCount "rules/{rule_id}" ∧
    hasSubstr missingMarker (MakeURLToEndpoint "/api/" "rules/{rule_id}" []).data = true := by
  decide

/-- Claim C9 (confirmed): only brace groups whose content is a non-empty run
of `[a-zA-Z_0-9]` characters are placeholders.  Any other brace group — empty
content, or content with a character outside the class — is scanned as plain
literal characters: it stays verbatim, consumes no argument, and leaves the
placeholder count (hence the positional alignment of later placeholders)
unchanged.  Concretely, `{rule-id}`, `{a.b}` and `{}` survive while the lone
word group `{cluster}` consumes the single argument. -/
theorem nonword_brace_groups_left_verbatim :
    (∀ (w r : List Char), '{' ∉ w → '}' ∉ w →
        (w = [] ∨ ∃ c ∈ w, isWordChar c = false) →
        tokenize ('{' :: (w ++ '}' :: r))
          = Tok.lit '{' :: (w.map Tok.lit ++ (Tok.lit '}' :: tokenize r)) ∧
        countPh (tokenize ('{' :: (w ++ '}' :: r))) = countPh (tokenize r)) ∧
    MakeURLToEndpoint "" "{rule-id}/{cluster}/{a.b}/{}/x" ["c1"] = "{rule-id}/c1/{a.b}/{}/x" ∧
    phCount "{rule-id}/{cluster}/{a.b}/{}/x" = 1 := by
  refine ⟨?_, by decide, by decide⟩
  intro w r hob hcb hcase
  have hhead : tokenize ('{' :: (w ++ '}' :: r))
      = Tok.lit '{' :: tokenize (w ++ '}' :: r) := by
    apply tokenize_open_lit
    rcases hcase with hnil | hbad
    · subst hnil
      intro hcontra
      have hwc : isWordChar '}' = false := by decide
      exact hcontra.1 (by simp [wordSpan, hwc])
    · rcases wordSpan_stops w r hbad hcb with ⟨b, tl, heq, hne⟩
      intro hcontra
      rw [heq] at hcontra
      exact hne (by simpa using hcontra.2)
  have htail : tokenize (w ++ '}' :: r) = w.map Tok.lit ++ tokenize ('}' :: r) :=
    tokenize_append_lits w _ hob
  have hbr : tokenize ('}' :: r) = Tok.lit '}' :: tokenize r :=
    tokenize_cons_lit _ _ (by decide)
  constructor
  · rw [hhead, htail, hbr]
  · rw [hhead, htail, hbr]
    simp [countPh, countPh_append, countPh_map_lit]

/-- Witness for C9: the theorem applied to the non-word group `{rule-id}`. -/
theorem nonword_brace_groups_left_verbatim_witness :
    tokenize ('{' :: ("rule-id".data ++ '}' :: "/x".data))
      = Tok.lit '{' :: ("rule-id".data.map Tok.lit ++ (Tok.lit '}' :: tokenize "/x".data)) :=
  (nonword_brace_groups_left_verbatim.1 "rule-id".data "/x".data (by decide) (by decide)
    (Or.inr (by decide))).1

/-!  Representative configurations used by the routing claims. -/

/-- A representative configuration: prefix `/api/v1/`, spec file
`openapi.json`, debug off. -/
def sampleCfg : ServerConfig := ⟨"/api/v1/", "openapi.json", false⟩

/-- The representative configuration with debug on. -/
def sampleCfgDebug : ServerConfig := ⟨"/api/v1/", "openapi.json", true⟩

/-- A configuration whose OpenAPI spec file basename collides with the
metrics route path. -/
def metricsNameCfg : ServerConfig := ⟨"/api/v1/", "metrics", false⟩

/-- Representative backend base endpoints. -/
def sampleSvc : ServicesConfig := ⟨"http://aggregator", "http://content"⟩

/-- The spec's section-6 standard route table written out literally, amended
to include the OPTIONS method where the source registers it (report, like,
dislike, reset_vote, disable, enable, groups). -/
def specRouteTable (cfg : ServerConfig) (svc : ServicesConfig) : List Route :=
  [ ⟨cfg.apiPrefixStr ++ "", [Method.GET], false, Target.localMain⟩,
    ⟨cfg.apiPrefixStr ++ "report/{organization}/{cluster}",
      [Method.GET, Method.OPTIONS], false, Target.proxy svc.AggregatorBaseEndpoint⟩,
    ⟨cfg.apiPrefixStr ++ "clusters/{cluster}/rules/{rule_id}/like",
      [Method.PUT, Method.OPTIONS], false, Target.proxy svc.AggregatorBaseEndpoint⟩,
    ⟨cfg.apiPrefixStr ++ "clusters/{cluster}/rules/{rule_id}/dislike",
      [Method.PUT, Method.OPTIONS], false, Target.proxy svc.AggregatorBaseEndpoint⟩,
    ⟨cfg.apiPrefixStr ++ "clusters/{cluster}/rules/{rule_id}/reset_vote",
      [Method.PUT, Method.OPTIONS], false, Target.proxy svc.AggregatorBaseEndpoint⟩,
    ⟨cfg.apiPrefixStr ++ "organizations/{organization}/clusters",
      [Method.GET], false, Target.proxy svc.AggregatorBaseEndpoint⟩,
    ⟨cfg.apiPrefixStr ++ "clusters/{cluster}/rules/{rule_id}/disable",
      [Method.PUT, Method.OPTIONS], false, Target.proxy svc.AggregatorBaseEndpoint⟩,
    ⟨cfg.apiPrefixStr ++ "clusters/{cluster}/rules/{rule_id}/enable",
      [Method.PUT, Method.OPTIONS], false, Target.proxy svc.AggregatorBaseEndpoint⟩,
    ⟨cfg.apiPrefixStr ++ "groups",
      [Method.GET, Method.OPTIONS], false, Target.proxy svc.ContentBaseEndpoint⟩,
    ⟨cfg.apiPrefixStr ++ "rules/{rule_id}/error_keys/{error_key}",
      [Method.GET], false, Target.proxy svc.AggregatorBaseEndpoint⟩,
    ⟨cfg.apiPrefixStr ++ "metrics", [Method.GET], false, Target.localMetrics⟩,
    ⟨cfg.apiPrefixStr ++ filepathBase cfg.APISpecFile,
      [Method.GET], false, Target.localSpecFile⟩ ]

/-- Counterexample to C1 as stated: with spec file basename `metrics`, two
routes resolve to the identical pair (GET, `/api/v1/metrics`), yet route
construction completes and registers both instead of failing. -/
theorem duplicate_pair_both_registered :
    hasDupRoute (addEndpointsToRouter metricsNameCfg sampleSvc) = true ∧
    ((addEndpointsToRouter metricsNameCfg sampleSvc).filter
        (fun r => r.pattern == "/api/v1/metrics" && r.methods.contains Method.GET)).length
      = 2 := by decide

/-- Claim C1 (amended): route-table construction is total and never fails:
for every configuration it returns the full route list (21 routes with debug
on, 12 with it off), even when two routes resolve to an identical
(method, pattern) pair; in the colliding configuration both routes are
registered and dispatch silently resolves to the earlier-registered one (the
metrics handler shadows the spec-file handler). -/
theorem route_construction_total :
    (∀ (cfg : ServerConfig) (svc : ServicesConfig),
        (addEndpointsToRouter cfg svc).length = if cfg.Debug then 21 else 12) ∧
    hasDupRoute (addEndpointsToRouter metricsNameCfg sampleSvc) = true ∧
    dispatch (addEndpointsToRouter metricsNameCfg sampleSvc) Method.GET "/api/v1/metrics"
      = some Target.localMetrics := by
  refine ⟨?_, by decide, by decide⟩
  intro cfg svc
  cases h : cfg.Debug <;>
    simp [addEndpointsToRouter, addDebugEndpointsToRouter, commonRoutes, h]

/-- Counterexample to C5 as stated: the like route is registered with method
set {PUT, OPTIONS}, not "exactly method PUT" as claimed from the section-6
table. -/
theorem like_route_has_options_method :
    ((addEndpointsToRouter sampleCfg sampleSvc).filter
        (fun r => r.pattern == "/api/v1/clusters/{cluster}/rules/{rule_id}/like")).map
        Route.methods
      = [[Method.PUT, Method.OPTIONS]] ∧
    ([[Method.PUT, Method.OPTIONS]] : List (List Method)) ≠ [[Method.PUT]] := by decide

/-- Claim C5 (amended): for every configuration, the standard part of the
route table is exactly the section-6 table with its listed path templates
under the prefix and its listed targets, except that OPTIONS is additionally
registered on report, like, dislike, reset_vote, disable, enable and groups;
the whole table is the conditional debug part followed by this table. -/
theorem standard_routes_match_spec_table :
    ∀ (cfg : ServerConfig) (svc : ServicesConfig),
      commonRoutes cfg svc = specRouteTable cfg svc ∧
      addEndpointsToRouter cfg svc
        = (if cfg.Debug then addDebugEndpointsToRouter cfg svc else [])
            ++ specRouteTable cfg svc :=
  fun _ _ => ⟨rfl, rfl⟩

/-- Counterexample to C4 as stated: two of its assertions fail on the code.
With debug off, a POST to the debug-only pair rules/r1/error_keys/e1 does
not yield not-found: its path is occupied by the standard GET route, so the
router answers 405 Method Not Allowed.  And with debug on, a request under
the pprof sub-tree is matched but dispatched to the local profiling handler
(`http.DefaultServeMux`), not to the aggregator backend target. -/
theorem debug_requests_yield_405_and_local_pprof :
    resolveRequest (addEndpointsToRouter sampleCfg sampleSvc) Method.POST
        "/api/v1/rules/r1/error_keys/e1" = RouteOutcome.methodNotAllowed ∧
    RouteOutcome.methodNotAllowed ≠ RouteOutcome.notFound ∧
    dispatch (addEndpointsToRouter sampleCfgDebug sampleSvc) Method.GET "/debug/pprof/heap"
      = some Target.localPprof ∧
    Target.localPprof ≠ Target.proxy sampleSvc.AggregatorBaseEndpoint := by decide

/-- Claim C4 (amended): with debug off the built table contains no debug
route (for every configuration it is exactly the standard routes).  At the
representative configuration, seven of the nine debug-only requests below
(and any pprof path) are then 404 not-found, while POST and DELETE on
rules/{rule_id}/error_keys/{error_key} are 405 Method Not Allowed, their
path being occupied by the standard GET route; an exact (method, path)
collision with a standard route (e.g. spec-file basename `organizations`)
would be matched outright.  With debug on the same requests are all matched:
the aggregator-backed ones dispatch to the aggregator target, while pprof
requests dispatch to the local profiling handler. -/
theorem debug_routes_gated_by_flag :
    (∀ (cfg : ServerConfig) (svc : ServicesConfig), cfg.Debug = false →
        addEndpointsToRouter cfg svc = commonRoutes cfg svc) ∧
    (resolveRequest (addEndpointsToRouter sampleCfg sampleSvc)
        Method.GET "/api/v1/organizations" = RouteOutcome.notFound ∧
      resolveRequest (addEndpointsToRouter sampleCfg sampleSvc)
        Method.DELETE "/api/v1/organizations/org1" = RouteOutcome.notFound ∧
      resolveRequest (addEndpointsToRouter sampleCfg sampleSvc)
        Method.DELETE "/api/v1/clusters/c1" = RouteOutcome.notFound ∧
      resolveRequest (addEndpointsToRouter sampleCfg sampleSvc)
        Method.GET "/api/v1/clusters/c1/rules/r1/get_vote" = RouteOutcome.notFound ∧
      resolveRequest (addEndpointsToRouter sampleCfg sampleSvc)
        Method.POST "/api/v1/rules/r1" = RouteOutcome.notFound ∧
      resolveRequest (addEndpointsToRouter sampleCfg sampleSvc)
        Method.DELETE "/api/v1/rules/r1" = RouteOutcome.notFound ∧
      resolveRequest (addEndpointsToRouter sampleCfg sampleSvc)
        Method.POST "/api/v1/rules/r1/error_keys/e1" = RouteOutcome.methodNotAllowed ∧
      resolveRequest (addEndpointsToRouter sampleCfg sampleSvc)
        Method.DELETE "/api/v1/rules/r1/error_keys/e1" = RouteOutcome.methodNotAllowed ∧
      resolveRequest (addEndpointsToRouter sampleCfg sampleSvc)
        Method.GET "/debug/pprof/heap" = RouteOutcome.notFound) ∧
    (resolveRequest (addEndpointsToRouter sampleCfgDebug sampleSvc)
        Method.GET "/api/v1/organizations"
        = RouteOutcome.matched (Target.proxy "http://aggregator") ∧
      resolveRequest (addEndpointsToRouter sampleCfgDebug sampleSvc)
        Method.DELETE "/api/v1/organizations/org1"
        = RouteOutcome.matched (Target.proxy "http://aggregator") ∧
      resolveRequest (addEndpointsToRouter sampleCfgDebug sampleSvc)
        Method.DELETE "/api/v1/clusters/c1"
        = RouteOutcome.matched (Target.proxy "http://aggregator") ∧
      resolveRequest (addEndpointsToRouter sampleCfgDebug sampleSvc)
        Method.GET "/api/v1/clusters/c1/rules/r1/get_vote"
        = RouteOutcome.matched (Target.proxy "http://aggregator") ∧
      resolveRequest (addEndpointsToRouter sampleCfgDebug sampleSvc)
        Method.POST "/api/v1/rules/r1"
        = RouteOutcome.matched (Target.proxy "http://aggregator") ∧
      resolveRequest (addEndpointsToRouter sampleCfgDebug sampleSvc)
        Method.DELETE "/api/v1/rules/r1"
        = RouteOutcome.matched (Target.proxy "http://aggregator") ∧
      resolveRequest (addEndpointsToRouter sampleCfgDebug sampleSvc)
        Method.POST "/api/v1/rules/r1/error_keys/e1"
        = RouteOutcome.matched (Target.proxy "http://aggregator") ∧
      resolveRequest (addEndpointsToRouter sampleCfgDebug sampleSvc)
        Method.DELETE "/api/v1/rules/r1/error_keys/e1"
        = RouteOutcome.matched (Target.proxy "http://aggregator") ∧
      resolveRequest (addEndpointsToRouter sampleCfgDebug sampleSvc)
        Method.GET "/debug/pprof/heap" = RouteOutcome.matched Target.localPprof) := by
  refine ⟨?_, by decide, by decide⟩
  intro cfg svc h
  simp [addEndpointsToRouter, h]

/-- Witness for C4 (amended): the gating conjunct applied at the
representative configuration. -/
theorem debug_routes_gated_by_flag_witness :
    addEndpointsToRouter sampleCfg sampleSvc = commonRoutes sampleCfg sampleSvc :=
  debug_routes_gated_by_flag.1 sampleCfg sampleSvc rfl

/-- Claim C6 (confirmed; `proxyTo`'s body is modelled from the spec, since
only its call sites are under src/): for every backend base, backend
behaviour and inbound request, the handler sends exactly one outbound
request, carrying the inbound method, query, headers and body, addressed at
the base endpoint joined with the resolved path, and returns the backend's
status, headers and body verbatim; in particular a proxied GET of
`/report/org1/cluster1` forwards one GET with empty body to
`http://aggregator/report/org1/cluster1`. -/
theorem proxyTo_forwards_verbatim :
    (∀ (base : String) (send : OutboundRequest → BackendResponse) (req : ProxiedRequest),
        (proxyTo base send req).sent
          = [⟨req.method, base ++ req.resolvedPath, req.query, req.headers, req.body⟩] ∧
        (proxyTo base send req).response
          = send ⟨req.method, base ++ req.resolvedPath, req.query, req.headers, req.body⟩) ∧
    (∀ send : OutboundRequest → BackendResponse,
        (proxyTo "http://aggregator" send
            ⟨Method.GET, "/report/org1/cluster1", "", [], ""⟩).sent
          = [⟨Method.GET, "http://aggregator/report/org1/cluster1", "", [], ""⟩]) := by
  exact ⟨fun base send req => ⟨rfl, rfl⟩, fun send => rfl⟩

/-- Claim C7 (amended): the first positional argument, trimmed then
lowercased (`start-service` when absent), is dispatched by `handleCommand`:
each of the five recognized tokens maps to its action; the exit status is 0
except when starting the server fails, which yields 1; a configuration-load
failure, however, panics before command dispatch instead of exiting with
status 1. -/
theorem cli_dispatch_behaviour :
    (∀ okS : Bool, handleCommand okS "start-service"
        = (Effect.startService, if okS then ExitStatusOK else ExitStatusServerError)) ∧
    (∀ okS : Bool, handleCommand okS "print-version" = (Effect.printVersionInfo, ExitStatusOK)) ∧
    (∀ okS : Bool, handleCommand okS "print-help" = (Effect.printHelp, ExitStatusOK)) ∧
    (∀ okS : Bool, handleCommand okS "print-config" = (Effect.printConfig, ExitStatusOK)) ∧
    (∀ okS : Bool, handleCommand okS "print-env" = (Effect.printEnv, ExitStatusOK)) ∧
    (∀ okS : Bool, mainRun true false false okS []
        = Except.ok (handleCommand okS "start-service")) ∧
    (∀ (okS : Bool) (a : String) (rest : List String),
        mainRun true false false okS (a :: rest)
          = Except.ok (handleCommand okS (toLowerStr (trimStr a)))) ∧
    mainRun true false false true ["  Print-Help "] = Except.ok (Effect.printHelp, ExitStatusOK) ∧
    mainRun false false false true [] = Except.error "panic: configuration load failure" := by
  exact ⟨fun okS => by cases okS <;> decide, fun okS => by cases okS <;> decide,
    fun okS => by cases okS <;> decide, fun okS => by cases okS <;> decide,
    fun okS => by cases okS <;> decide, fun okS => by cases okS <;> rfl,
    fun okS a rest => rfl, rfl, rfl⟩

/-- Counterexample to C7 as stated: on a configuration-load fatal error the
process does not exit with status 1: `main` panics (abnormal termination)
before any exit status is produced. -/
theorem config_load_failure_panics :
    mainRun false false false true [] = Except.error "panic: configuration load failure" ∧
    (mainRun false false false true []).isOk = false := ⟨rfl, rfl⟩

/-- Claim C8 (confirmed): every command token outside the five recognized
ones falls through the switch and returns the success status 0 with no
action performed. -/
theorem unknown_command_is_silent_noop :
    ∀ (okS : Bool) (cmd : String),
      cmd ∉ ["start-service", "print-version", "print-help", "print-config", "print-env"] →
      handleCommand okS cmd = (Effect.noop, ExitStatusOK) := by
  intro okS cmd h
  simp only [List.mem_cons, List.not_mem_nil, or_false, not_or] at h
  obtain ⟨h1, h2, h3, h4, h5⟩ := h
  simp [handleCommand, h1, h2, h3, h4, h5]

/-- Witness for C8: the theorem applied to the unrecognized token `restart`. -/
theorem unknown_command_is_silent_noop_witness :
    handleCommand true "restart" = (Effect.noop, ExitStatusOK) :=
  unknown_command_is_silent_noop true "restart" (by decide)

/-- Claim C10 (confirmed): the tokens `help` and `print-version-info` are
advertised as commands by the help message, yet neither is a case of
`handleCommand`: both fall through to the default branch, returning status 0
without printing anything. -/
theorem advertised_commands_not_dispatched :
    (∀ okS : Bool, handleCommand okS "help" = (Effect.noop, ExitStatusOK)) ∧
    (∀ okS : Bool, handleCommand okS "print-version-info" = (Effect.noop, ExitStatusOK)) ∧
    hasSubstr ("    help                prints help\n".data) helpMessageTemplate.data = true ∧
    hasSubstr ("    print-version-info  prints version info\n".data) helpMessageTemplate.data
      = true := by
  refine ⟨fun okS => by cases okS <;> decide, fun okS => by cases okS <;> decide,
    by decide, by decide⟩
